import Mathlib

/-!
Verification of the metrics/grading engine of the rodent-complaint scorecard
repository (`src/utils/metrics.py` and the normalization step of
`src/data/fetch.py`).

Conventions of the shallow embedding:
* A pandas DataFrame of complaint records is a `List Record`; a nullable
  column entry is an `Option`.
* Floating point numbers are modelled as exact rationals `ℚ`.  A NaN entry
  (pandas `NaN` / numpy `nan`) is modelled as `none : Option ℚ`; arithmetic
  on `Option ℚ` propagates `none` exactly as IEEE arithmetic propagates NaN,
  and every ordered comparison against `none` is false, exactly as every
  ordered comparison on NaN is false.
* Timestamps are integer epoch seconds (`Int`), matching the code's use of
  `.dt.total_seconds()`.
-/

namespace RatsAt

/-- Case-insensitive substring test on character lists: does the second list
contain the first as a contiguous infix?  This embeds pandas
`Series.str.contains(pat, case=False)` for a pattern without regex
metacharacters. -/
def containsChars (pat : List Char) : List Char → Bool
  | [] => pat.isEmpty
  | c :: rest => pat.isPrefixOf (c :: rest) || containsChars pat rest

/-- `df['status'].str.contains('Completed', case=False, na=False)` for one
status cell: a missing status (`na=False`) is not a match; otherwise compare
lower-cased text. -/
def statusContainsCompleted : Option String → Bool
  | none => false
  | some s => containsChars ("Completed".toList.map Char.toLower) (s.toList.map Char.toLower)

/-- One raw 311 complaint record, with the columns the metrics engine reads
(`src/data/fetch.py` select list restricted to what `metrics.py` uses).
`created_date`/`closed_date` are epoch seconds; `ward` is nullable
(`pd.to_numeric(..., errors='coerce')`). -/
structure Record where
  sr_number : Nat
  ward : Option Int
  status : Option String
  created_date : Int
  closed_date : Option Int
deriving DecidableEq

/-- `df['response_days'] = (df['closed_date'] - df['created_date']).dt.total_seconds() / 86400`
(`src/data/fetch.py` line 59); `none` when `closed_date` is missing (NaT). -/
def response_days_raw (r : Record) : Option ℚ :=
  r.closed_date.map (fun c => ((c - r.created_date : ℤ) : ℚ) / 86400)

/-- The normalized `response_days` column after the two invalidation steps
`df.loc[df['response_days'] < 0] = None` and
`df.loc[df['response_days'] > 365] = None` (`src/data/fetch.py` lines 62-63). -/
def response_days (r : Record) : Option ℚ :=
  match response_days_raw r with
  | none => none
  | some d => if d < 0 then none else if 365 < d then none else some d

/-- Membership in the "completed" subset used by `calculate_ward_metrics` and
`get_city_summary` (`src/utils/metrics.py` lines 18-22 and 216-220): status
contains "Completed" case-insensitively, `response_days` is not NaN, and
`response_days > 0`. -/
def isCompleted (r : Record) : Bool :=
  statusContainsCompleted r.status &&
    (match response_days r with
     | none => false
     | some d => decide (0 < d))

/-- The completed subset `completed = df[...]` of `calculate_ward_metrics`. -/
def completedRecords (records : List Record) : List Record :=
  records.filter isCompleted

/-- Ascending sort of a value column, used to embed the order statistics
(median, percentile, min, max) that pandas computes on a group. -/
def sortedVals (l : List ℚ) : List ℚ :=
  l.insertionSort (· ≤ ·)

/-- pandas `Series.median()`: middle element of the sorted values for odd
length, average of the two middle elements for even length.  Junk value `0`
on the empty list (pandas would give NaN; the pipeline only applies this to
nonempty groups). -/
def medianOf (l : List ℚ) : ℚ :=
  let s := sortedVals l
  if l.length % 2 = 1 then s.getD (l.length / 2) 0
  else (s.getD (l.length / 2 - 1) 0 + s.getD (l.length / 2) 0) / 2

/-- `np.percentile(x, 90)` with the default linear interpolation:
position `(len-1) * 90/100`, linear interpolation between the two
neighbouring sorted values. -/
def percentile90 (l : List ℚ) : ℚ :=
  let s := sortedVals l
  let pos : ℚ := ((l.length : ℚ) - 1) * 90 / 100
  let lo := s.getD (⌊pos⌋).toNat 0
  let hi := s.getD ((⌊pos⌋).toNat + 1) lo
  lo + (pos - (⌊pos⌋ : ℚ)) * (hi - lo)

/-- pandas `Series.min()` on a group (smallest element; junk 0 on empty). -/
def minOf (l : List ℚ) : ℚ :=
  (sortedVals l).headD 0

/-- pandas `Series.max()` on a group (largest element; junk 0 on empty). -/
def maxOf (l : List ℚ) : ℚ :=
  (sortedVals l).getLastD 0

/-- The square of pandas `Series.std()` (sample standard deviation,
`ddof=1`): the sample variance `Σ (x - mean)² / (len - 1)`, `none` (NaN) when
fewer than two observations.  The source column `std_response` is the square
root of this value; since `x ↦ √x` is strictly monotone on nonnegatives and
every downstream use of `std_response` is through its rank among the other
districts' values (see `percentile_score_strictMono_invariant`), carrying the
variance is an order-faithful embedding that stays inside `ℚ`. -/
def sampleVarianceOf (l : List ℚ) : Option ℚ :=
  if l.length < 2 then none
  else
    let mu := l.sum / l.length
    some ((l.map (fun x => (x - mu) ^ 2)).sum / ((l.length : ℚ) - 1))

/-- Round-half-even to an integer, the rounding used by Python's `round` and
by numpy/pandas `.round`. -/
def rne (x : ℚ) : ℤ :=
  if x - (⌊x⌋ : ℚ) < 1 / 2 then ⌊x⌋
  else if 1 / 2 < x - (⌊x⌋ : ℚ) then ⌊x⌋ + 1
  else if ⌊x⌋ % 2 = 0 then ⌊x⌋ else ⌊x⌋ + 1

/-- `.round(1)` / `round(x, 1)`: round-half-even at one decimal place. -/
def round1 (x : ℚ) : ℚ :=
  (rne (x * 10) : ℚ) / 10

/-- The completed records of one ward: rows of the group
`completed.groupby('ward')` for key `w` (pandas drops null group keys). -/
def wardCompleted (records : List Record) (w : Int) : List Record :=
  (completedRecords records).filter (fun r => decide (r.ward = some w))

/-- The `response_days` values of one ward's completed group (all of them are
non-null by the `isCompleted` filter). -/
def wardValues (records : List Record) (w : Int) : List ℚ :=
  (wardCompleted records w).filterMap response_days

/-- The group keys of `completed.groupby('ward')`: the distinct non-null ward
ids of the completed subset, in ascending order (pandas sorts group keys). -/
def wardList (records : List Record) : List Int :=
  ((completedRecords records).filterMap Record.ward).dedup.insertionSort (· ≤ ·)

/-- One output row of `calculate_ward_metrics` (`src/utils/metrics.py`
lines 25-51): the aggregated columns, the merged completion-rate columns, the
rank and the city comparison.  `std_response_sq` holds the square of the
source's `std_response` column (see `sampleVarianceOf`). -/
structure MetricsRow where
  ward : Int
  total_complaints : Nat
  median_response : ℚ
  mean_response : ℚ
  p90_response : ℚ
  min_response : ℚ
  max_response : ℚ
  std_response_sq : Option ℚ
  completion_rate : ℚ
  all_complaints : Nat
  rank : Nat
  vs_city_median : ℚ
deriving DecidableEq

/-- The aggregation step for one ward `w` (`src/utils/metrics.py` lines
25-44).  `total_complaints` is the `('sr_number', 'count')` aggregate of the
*completed* group; `all_complaints` comes from grouping the full frame;
`completion_rate = completed / all_complaints * 100` rounded to one decimal.
(The `fillna(0)` branch of the source's merge is unreachable for output rows:
every ward of the metrics table has at least one completed record.)
`rank` and `vs_city_median` are placeholders overwritten by `setRank`. -/
def mkMetricsRow (records : List Record) (w : Int) : MetricsRow :=
  { ward := w
    total_complaints := (wardCompleted records w).length
    median_response := medianOf (wardValues records w)
    mean_response := (wardValues records w).sum / ((wardValues records w).length : ℚ)
    p90_response := percentile90 (wardValues records w)
    min_response := minOf (wardValues records w)
    max_response := maxOf (wardValues records w)
    std_response_sq := sampleVarianceOf (wardValues records w)
    completion_rate := round1 (((wardCompleted records w).length : ℚ)
      / ((records.countP (fun r => decide (r.ward = some w))) : ℚ) * 100)
    all_complaints := records.countP (fun r => decide (r.ward = some w))
    rank := 0
    vs_city_median := 0 }

/-- The metrics table before rank assignment, one row per group key. -/
def preRows (records : List Record) : List MetricsRow :=
  (wardList records).map (mkMetricsRow records)

/-- `city_median = completed['response_days'].median()` (line 50). -/
def cityMedian (records : List Record) : ℚ :=
  medianOf ((completedRecords records).filterMap response_days)

/-- `metrics['rank'] = metrics['median_response'].rank(method='min').astype(int)`
(line 47) and `vs_city_median` (line 51).  The `'min'` ranking method gives
`1 + #(strictly smaller values)`. -/
def setRank (records : List Record) (r : MetricsRow) : MetricsRow :=
  { r with
    rank := 1 + (preRows records).countP (fun s => decide (s.median_response < r.median_response))
    vs_city_median :=
      round1 ((r.median_response - cityMedian records) / cityMedian records * 100) }

/-- The metrics table with ranks, before the final sort. -/
def rankedRows (records : List Record) : List MetricsRow :=
  (preRows records).map (setRank records)

/-- Comparison by rank, used for the final `sort_values('rank')`. -/
def rankLE (a b : MetricsRow) : Prop :=
  a.rank ≤ b.rank

instance : DecidableRel rankLE :=
  fun a b => inferInstanceAs (Decidable (a.rank ≤ b.rank))

instance : IsTotal MetricsRow rankLE :=
  ⟨fun a b => Nat.le_total a.rank b.rank⟩

instance : IsTrans MetricsRow rankLE :=
  ⟨fun _ _ _ h h' => Nat.le_trans h h'⟩

/-- `calculate_ward_metrics` (`src/utils/metrics.py` lines 8-56): aggregate
the completed subset per ward, attach completion rates, rank by median
response and sort by rank. -/
def calculate_ward_metrics (records : List Record) : List MetricsRow :=
  (rankedRows records).insertionSort rankLE

/-- pandas `Series.rank(method='average')` of a present value `v` within the
column `col`: ranks ` 1 + #smaller, ..., #smaller + #ties` are averaged to
`#smaller + (#ties + 1)/2`.  `ascending = false` ranks by `>` instead of `<`
(`ascending=False` in the source). -/
def rankAvg (ascending : Bool) (col : List ℚ) (v : ℚ) : ℚ :=
  (col.countP (fun x => if ascending then decide (x < v) else decide (v < x)) : ℚ)
    + ((col.countP (fun x => decide (x = v)) : ℚ) + 1) / 2

/-- The inner `percentile_score` of `calculate_ward_grades`
(`src/utils/metrics.py` lines 84-97): `100 - ((rank - 1) / max(n - 1, 1)) * 80`
where `rank` is the average-method rank of `v` in the column and
`n = len(metrics)` is supplied by the enclosing scope.  `col` is the list of
non-NaN entries of the column (pandas ranks only those). -/
def percentile_score (ascending : Bool) (n : Nat) (col : List ℚ) (v : ℚ) : ℚ :=
  100 - (rankAvg ascending col v - 1) / ((max (n - 1) 1 : ℕ) : ℚ) * 80

/-- A pandas column entry under scoring: NaN entries (`none`) keep a NaN rank
(`na_option='keep'`), so their score is NaN. -/
def scoreOf (ascending : Bool) (n : Nat) (col : List (Option ℚ)) (o : Option ℚ) :
    Option ℚ :=
  o.map (percentile_score ascending n (col.filterMap id))

/-- IEEE multiplication of a possibly-NaN series entry by a finite constant:
NaN stays NaN. -/
def nanMul (o : Option ℚ) (c : ℚ) : Option ℚ :=
  o.map (· * c)

/-- IEEE addition of possibly-NaN values: any NaN operand makes the sum NaN. -/
def nanAdd : Option ℚ → Option ℚ → Option ℚ
  | some a, some b => some (a + b)
  | _, _ => none

/-- `assign_grade` (`src/utils/metrics.py` lines 125-135).  For a NaN score
(`none`) every comparison `score >= c` is false in IEEE arithmetic, so the
chain falls through to `'F'`. -/
def assign_grade : Option ℚ → String
  | none => "F"
  | some s =>
      if 80 ≤ s then "A"
      else if 65 ≤ s then "B"
      else if 50 ≤ s then "C"
      else if 35 ≤ s then "D"
      else "F"

/-- `grade_colors` mapping (`src/utils/metrics.py` lines 145-152). -/
def gradeColorOf : String → Option String
  | "A" => some "#22c55e"
  | "B" => some "#84cc16"
  | "C" => some "#eab308"
  | "D" => some "#f97316"
  | "F" => some "#ef4444"
  | _ => none

/-- The five factor columns fed to `percentile_score`
(`src/utils/metrics.py` lines 100-112). -/
def speedCol (m : List MetricsRow) : List (Option ℚ) :=
  m.map (fun r => some r.median_response)

/-- Volume column: `total_complaints` as a numeric series. -/
def volumeCol (m : List MetricsRow) : List (Option ℚ) :=
  m.map (fun r => some (r.total_complaints : ℚ))

/-- P90 column. -/
def p90Col (m : List MetricsRow) : List (Option ℚ) :=
  m.map (fun r => some r.p90_response)

/-- Consistency column: `std_response`, which is NaN (`none`) for groups of
size one.  Ranking the stored squares is rank-equivalent to ranking the
standard deviations (see `percentile_score_strictMono_invariant`). -/
def consistencyCol (m : List MetricsRow) : List (Option ℚ) :=
  m.map (fun r => r.std_response_sq)

/-- Completion-rate column. -/
def completionCol (m : List MetricsRow) : List (Option ℚ) :=
  m.map (fun r => some r.completion_rate)

/-- One output row of `calculate_ward_grades` (`src/utils/metrics.py`
lines 59-154): the metrics row plus the factor scores, final score, grade and
presentation extras. -/
structure GradeRow where
  base : MetricsRow
  low_sample_size : Bool
  speed_score : Option ℚ
  volume_score : Option ℚ
  p90_score : Option ℚ
  consistency_score : Option ℚ
  completion_score : Option ℚ
  final_score : Option ℚ
  grade : String
  grade_color : Option String
  adjusted_response : ℚ
  volume_adjustment : ℚ
  response_score : Option ℚ
deriving DecidableEq

/-- The per-row computation of `calculate_ward_grades`: the five percentile
scores against the cohort `m` (with `n = len(metrics)`), the weighted final
score `0.30 / 0.25 / 0.20 / 0.15 / 0.10`, the grade, and the
backwards-compatibility columns of lines 139-152. -/
def mkGradeRow (threshold : Nat) (m : List MetricsRow) (r : MetricsRow) : GradeRow :=
  let n := m.length
  let speed := scoreOf true n (speedCol m) (some r.median_response)
  let volume := scoreOf false n (volumeCol m) (some (r.total_complaints : ℚ))
  let p90 := scoreOf true n (p90Col m) (some r.p90_response)
  let consistency := scoreOf true n (consistencyCol m) r.std_response_sq
  let completion := scoreOf false n (completionCol m) (some r.completion_rate)
  let final :=
    nanAdd (nanAdd (nanAdd (nanAdd (nanMul speed (30 / 100))
      (nanMul volume (25 / 100))) (nanMul p90 (20 / 100)))
      (nanMul consistency (15 / 100))) (nanMul completion (10 / 100))
  { base := r
    low_sample_size := decide (r.total_complaints < threshold)
    speed_score := speed
    volume_score := volume
    p90_score := p90
    consistency_score := consistency
    completion_score := completion
    final_score := final
    grade := assign_grade final
    grade_color := gradeColorOf (assign_grade final)
    adjusted_response := r.median_response
    volume_adjustment := 1
    response_score := speed }

/-- `calculate_ward_grades(metrics, min_complaints_threshold=800)`
(`src/utils/metrics.py` lines 59-154): adds the factor scores, final score
and grade to every metrics row; row order is unchanged.  The source's default
threshold is 800. -/
def calculate_ward_grades (threshold : Nat) (m : List MetricsRow) : List GradeRow :=
  m.map (mkGradeRow threshold m)

/-- The dictionary returned by `get_city_summary` (`src/utils/metrics.py`
lines 207-233).  `date_start`/`date_end` embed the `date_range` min/max of
`created_date` (`none` = NaT on an empty frame). -/
structure CitySummary where
  total_complaints : Nat
  completed_complaints : Nat
  completion_rate : ℚ
  median_response_days : Option ℚ
  mean_response_days : Option ℚ
  wards_with_data : Nat
  date_start : Option Int
  date_end : Option Int
deriving DecidableEq

/-- `df['created_date'].min()`: `none` on the empty frame. -/
def minDate : List Record → Option Int
  | [] => none
  | r :: rs => some ((rs.map Record.created_date).foldl min r.created_date)

/-- `df['created_date'].max()`: `none` on the empty frame. -/
def maxDate : List Record → Option Int
  | [] => none
  | r :: rs => some ((rs.map Record.created_date).foldl max r.created_date)

/-- `get_city_summary` (`src/utils/metrics.py` lines 207-233): city-wide
totals over the full frame, median/mean response (rounded to one decimal)
over the completed subset, distinct non-null wards, and the created-date
range. -/
def get_city_summary (records : List Record) : CitySummary :=
  let completed := completedRecords records
  let vals := completed.filterMap response_days
  { total_complaints := records.length
    completed_complaints := completed.length
    completion_rate :=
      if 0 < records.length then
        round1 ((completed.length : ℚ) / (records.length : ℚ) * 100)
      else 0
    median_response_days :=
      if 0 < completed.length then some (round1 (medianOf vals)) else none
    mean_response_days :=
      if 0 < completed.length then some (round1 (vals.sum / (vals.length : ℚ)))
      else none
    wards_with_data := (records.filterMap Record.ward).dedup.length
    date_start := minDate records
    date_end := maxDate records }

/-! ### Concrete inputs used by witnesses and counterexamples -/

/-- A completed record: ward `w`, closed after `days` days. -/
def mkCompleted (sr : Nat) (w : Int) (days : Int) : Record :=
  { sr_number := sr, ward := some w, status := some "Completed",
    created_date := 0, closed_date := some (days * 86400) }

/-- A still-open record in ward `w`. -/
def mkOpen (sr : Nat) (w : Int) : Record :=
  { sr_number := sr, ward := some w, status := some "Open",
    created_date := 0, closed_date := none }

/-- Fallback row for `List.getD`; never selected in the witnesses. -/
def arbMetricsRow : MetricsRow :=
  mkMetricsRow [] 0

/-- Fallback grade row for `List.getD`; never selected in the witnesses. -/
def arbGradeRow : GradeRow :=
  mkGradeRow 800 [] arbMetricsRow

/-- Ward 1 has one completed and one open record. -/
def exC1 : List Record :=
  [mkCompleted 1 1 1, mkOpen 2 1]

/-- Same shape as `exC1`, for the amended-claim witness. -/
def exC1w : List Record :=
  [mkCompleted 1 1 2, mkOpen 2 1]

/-- Two districts whose statistics tie on every factor. -/
def exC2 : List Record :=
  [mkCompleted 1 1 2, mkCompleted 2 2 2]

/-- Two districts, two completed records each, distinct medians. -/
def exC4w : List Record :=
  [mkCompleted 1 1 1, mkCompleted 2 1 2, mkCompleted 3 2 3, mkCompleted 4 2 4]

/-- A single district with a single completed record (NaN std). -/
def exC4 : List Record :=
  [mkCompleted 1 1 1]

/-- One completed and one open record in one ward. -/
def exC5 : List Record :=
  [mkCompleted 1 1 3, mkOpen 2 1]

/-- Three districts: wards 1 and 2 share the median, ward 3 is slower. -/
def exC6 : List Record :=
  [mkCompleted 1 1 2, mkCompleted 2 2 2, mkCompleted 3 3 5]

/-- A record whose `closed_date` precedes its `created_date` although its
status says Completed. -/
def exC7 : Record :=
  { sr_number := 1, ward := some 1, status := some "Completed",
    created_date := 86400, closed_date := some 0 }

/-- Two completed records in one ward. -/
def exC9 : List Record :=
  [mkCompleted 1 1 1, mkCompleted 2 1 3]

/-- `exC9` with the record order swapped. -/
def exC9sw : List Record :=
  [mkCompleted 2 1 3, mkCompleted 1 1 1]

/-- A single district with a single completed record (NaN std). -/
def exC10 : List Record :=
  [mkCompleted 1 1 1]

/-! ### Helper lemmas -/

lemma insertionSort_perm_eq {α : Type} [LinearOrder α] {l l' : List α}
    (h : l.Perm l') : l.insertionSort (· ≤ ·) = l'.insertionSort (· ≤ ·) :=
  List.eq_of_perm_of_sorted
    ((List.perm_insertionSort _ _).trans (h.trans (List.perm_insertionSort _ _).symm))
    (List.sorted_insertionSort _ _) (List.sorted_insertionSort _ _)

lemma sortedVals_perm_eq {l l' : List ℚ} (h : l.Perm l') :
    sortedVals l = sortedVals l' :=
  insertionSort_perm_eq h

lemma medianOf_perm {l l' : List ℚ} (h : l.Perm l') : medianOf l = medianOf l' := by
  unfold medianOf
  rw [sortedVals_perm_eq h, h.length_eq]

lemma percentile90_perm {l l' : List ℚ} (h : l.Perm l') :
    percentile90 l = percentile90 l' := by
  unfold percentile90
  rw [sortedVals_perm_eq h, h.length_eq]

lemma minOf_perm {l l' : List ℚ} (h : l.Perm l') : minOf l = minOf l' := by
  unfold minOf
  rw [sortedVals_perm_eq h]

lemma maxOf_perm {l l' : List ℚ} (h : l.Perm l') : maxOf l = maxOf l' := by
  unfold maxOf
  rw [sortedVals_perm_eq h]

lemma sampleVarianceOf_perm {l l' : List ℚ} (h : l.Perm l') :
    sampleVarianceOf l = sampleVarianceOf l' := by
  unfold sampleVarianceOf
  rw [h.length_eq, h.sum_eq]
  simp only [List.Perm.sum_eq (h.map _)]

lemma length_filterMap_of_isSome {α β : Type} {f : α → Option β} {l : List α}
    (h : ∀ a ∈ l, (f a).isSome) : (l.filterMap f).length = l.length := by
  induction l with
  | nil => rfl
  | cons a l ih =>
      rw [List.filterMap_cons]
      cases hfa : f a with
      | none =>
          have := h a (List.mem_cons_self a l)
          rw [hfa] at this
          simp at this
      | some b =>
          simp only [List.length_cons]
          rw [ih (fun x hx => h x (List.mem_cons_of_mem a hx))]

lemma isCompleted_isSome {r : Record} (h : isCompleted r = true) :
    (response_days r).isSome := by
  unfold isCompleted at h
  rw [Bool.and_eq_true] at h
  cases hd : response_days r with
  | none => rw [hd] at h; simp at h
  | some d => rfl

lemma mem_wardCompleted {records : List Record} {w : Int} {r : Record}
    (h : r ∈ wardCompleted records w) :
    isCompleted r = true ∧ r.ward = some w := by
  unfold wardCompleted completedRecords at h
  have h1 := List.mem_filter.mp h
  have h2 := List.mem_filter.mp h1.1
  exact ⟨h2.2, by simpa using h1.2⟩

lemma wardValues_length (records : List Record) (w : Int) :
    (wardValues records w).length = (wardCompleted records w).length := by
  unfold wardValues
  exact length_filterMap_of_isSome
    (fun r hr => isCompleted_isSome (mem_wardCompleted hr).1)

lemma wardCompleted_length (records : List Record) (w : Int) :
    (wardCompleted records w).length
      = records.countP (fun r => isCompleted r && decide (r.ward = some w)) := by
  unfold wardCompleted completedRecords
  rw [← List.countP_eq_length_filter, List.countP_filter]
  exact List.countP_congr (fun r _ => by
    constructor
    · intro h
      rw [Bool.and_eq_true] at h ⊢
      exact ⟨h.2, h.1⟩
    · intro h
      rw [Bool.and_eq_true] at h ⊢
      exact ⟨h.2, h.1⟩)

lemma mem_calculate_ward_metrics {records : List Record} {row : MetricsRow} :
    row ∈ calculate_ward_metrics records ↔
      ∃ w, w ∈ wardList records ∧ row = setRank records (mkMetricsRow records w) := by
  unfold calculate_ward_metrics rankedRows preRows
  rw [(List.perm_insertionSort _ _).mem_iff, List.map_map, List.mem_map]
  constructor
  · rintro ⟨w, hw, hrow⟩
    exact ⟨w, hw, hrow.symm⟩
  · rintro ⟨w, hw, hrow⟩
    exact ⟨w, hw, hrow.symm⟩

lemma mem_out_of_mem_preRows {records : List Record} {s : MetricsRow}
    (hs : s ∈ preRows records) :
    setRank records s ∈ calculate_ward_metrics records := by
  unfold calculate_ward_metrics rankedRows
  rw [(List.perm_insertionSort _ _).mem_iff]
  exact List.mem_map_of_mem _ hs

lemma exists_completed_of_mem_wardList {records : List Record} {w : Int}
    (h : w ∈ wardList records) :
    ∃ r ∈ completedRecords records, r.ward = some w := by
  unfold wardList at h
  rw [(List.perm_insertionSort _ _).mem_iff, List.mem_dedup, List.mem_filterMap] at h
  exact h

lemma countP_metrics_median (records : List Record) (q : ℚ → Bool) :
    (calculate_ward_metrics records).countP (fun t => q t.median_response)
      = (preRows records).countP (fun t => q t.median_response) := by
  unfold calculate_ward_metrics rankedRows
  rw [(List.perm_insertionSort _ _).countP_eq, List.countP_map]
  rfl

lemma countP_or_disjoint {α : Type} {p q : α → Bool} {l : List α}
    (hdis : ∀ a ∈ l, ¬(p a = true ∧ q a = true)) :
    l.countP (fun a => p a || q a) = l.countP p + l.countP q := by
  induction l with
  | nil => rfl
  | cons a l ih =>
      rw [List.countP_cons, List.countP_cons, List.countP_cons,
        ih (fun x hx => hdis x (List.mem_cons_of_mem a hx))]
      have := hdis a (List.mem_cons_self a l)
      cases hp : p a <;> cases hq : q a <;> simp_all <;> omega

lemma le_rne (x : ℚ) : x - 1 / 2 ≤ (rne x : ℚ) := by
  unfold rne
  have h1 : ((⌊x⌋ : ℤ) : ℚ) ≤ x := Int.floor_le x
  have h2 : x < (⌊x⌋ : ℚ) + 1 := Int.lt_floor_add_one x
  split_ifs with ha hb hc <;> push_cast <;> linarith

lemma rne_le (x : ℚ) : (rne x : ℚ) ≤ x + 1 / 2 := by
  unfold rne
  have h1 : ((⌊x⌋ : ℤ) : ℚ) ≤ x := Int.floor_le x
  have h2 : x < (⌊x⌋ : ℚ) + 1 := Int.lt_floor_add_one x
  split_ifs with ha hb hc <;> push_cast <;> linarith

lemma round1_nonneg {x : ℚ} (h : 0 ≤ x) : 0 ≤ round1 x := by
  unfold round1
  have h1 := le_rne (x * 10)
  have h2 : (-1 : ℚ) < (rne (x * 10) : ℚ) := by linarith
  have h3 : (-1 : ℤ) < rne (x * 10) := by exact_mod_cast h2
  have h4 : (0 : ℚ) ≤ (rne (x * 10) : ℚ) := by
    have : (0 : ℤ) ≤ rne (x * 10) := by omega
    exact_mod_cast this
  positivity

lemma round1_le_100 {x : ℚ} (h : x ≤ 100) : round1 x ≤ 100 := by
  unfold round1
  have h1 := rne_le (x * 10)
  have h2 : (rne (x * 10) : ℚ) < 1001 := by linarith
  have h3 : rne (x * 10) < (1001 : ℤ) := by exact_mod_cast h2
  have h4 : ((rne (x * 10) : ℤ) : ℚ) ≤ 1000 := by
    have : rne (x * 10) ≤ (1000 : ℤ) := by omega
    exact_mod_cast this
  linarith

lemma countP_ne_le {col : List ℚ} {v : ℚ} {p : ℚ → Bool}
    (hp : ∀ x ∈ col, p x = true → x ≠ v) :
    col.countP p + col.countP (fun x => decide (x = v)) ≤ col.length := by
  have h1 : col.countP p ≤ col.countP (fun x => !decide (x = v)) :=
    List.countP_mono_left (fun x hx hpx => by
      simp only [Bool.not_eq_true', decide_eq_false_iff_not]
      exact hp x hx hpx)
  have h2 : col.length = col.countP (fun x => decide (x = v))
      + col.countP (fun x => !decide (x = v)) := by
    have := List.length_eq_countP_add_countP (fun x => decide (x = v)) col
    simpa using this
  omega

lemma rankAvg_bounds {ascending : Bool} {col : List ℚ} {v : ℚ} (hv : v ∈ col) :
    1 ≤ rankAvg ascending col v ∧ rankAvg ascending col v ≤ (col.length : ℚ) := by
  unfold rankAvg
  set p : ℚ → Bool :=
    fun x => if ascending then decide (x < v) else decide (v < x) with hp
  have hties : 1 ≤ col.countP (fun x => decide (x = v)) := by
    rw [Nat.one_le_iff_ne_zero]
    intro hzero
    rw [List.countP_eq_zero] at hzero
    exact hzero v hv (by simp)
  have hdisj : ∀ x ∈ col, p x = true → x ≠ v := by
    intro x _ hpx hxv
    subst hxv
    rw [hp] at hpx
    cases ascending <;> simp at hpx
  have hsum := countP_ne_le hdisj
  have hb : (0 : ℚ) ≤ (col.countP p : ℚ) := by positivity
  have ht : (1 : ℚ) ≤ (col.countP (fun x => decide (x = v)) : ℚ) := by
    exact_mod_cast hties
  have hs : (col.countP p : ℚ) + (col.countP (fun x => decide (x = v)) : ℚ)
      ≤ (col.length : ℚ) := by exact_mod_cast hsum
  constructor <;> linarith

lemma percentile_score_bounds {ascending : Bool} {n : Nat} {col : List ℚ} {v : ℚ}
    (hv : v ∈ col) (hn : col.length ≤ n) :
    20 ≤ percentile_score ascending n col v
      ∧ percentile_score ascending n col v ≤ 100 := by
  unfold percentile_score
  obtain ⟨hr1, hr2⟩ := @rankAvg_bounds ascending col v hv
  have hlen1 : 1 ≤ col.length :=
    List.length_pos.mpr (by rintro rfl; exact List.not_mem_nil v hv)
  have hD1 : 1 ≤ max (n - 1) 1 := le_max_right _ _
  have hDq : (1 : ℚ) ≤ ((max (n - 1) 1 : ℕ) : ℚ) := by exact_mod_cast hD1
  have hround : rankAvg ascending col v - 1 ≤ ((max (n - 1) 1 : ℕ) : ℚ) := by
    rcases Nat.lt_or_ge n 2 with hn2 | hn2
    · have : col.length = 1 := by omega
      rw [this] at hr2
      push_cast at hr2
      linarith
    · have hmax : max (n - 1) 1 = n - 1 := by omega
      rw [hmax]
      have : ((n - 1 : ℕ) : ℚ) = (n : ℚ) - 1 := by
        push_cast [Nat.cast_sub (by omega : 1 ≤ n)]
        ring
      rw [this]
      have : (col.length : ℚ) ≤ (n : ℚ) := by exact_mod_cast hn
      linarith
  have hdiv0 : 0 ≤ (rankAvg ascending col v - 1) / ((max (n - 1) 1 : ℕ) : ℚ) := by
    apply div_nonneg (by linarith) (by linarith)
  have hdiv1 : (rankAvg ascending col v - 1) / ((max (n - 1) 1 : ℕ) : ℚ) ≤ 1 := by
    rw [div_le_one (by linarith)]
    exact hround
  constructor <;> linarith

/-- Justification for storing `std_response` squared: a strictly monotone
transformation of a column (such as `x ↦ √x` or its inverse `x ↦ x²` on
nonnegatives) changes neither average ranks nor percentile scores, so ranking
the sample variances is the same as ranking the sample standard deviations. -/
lemma percentile_score_strictMono_invariant (ascending : Bool) (n : Nat)
    (f : ℚ → ℚ) (hf : ∀ a b : ℚ, a < b → f a < f b) (col : List ℚ) (v : ℚ) :
    percentile_score ascending n (col.map f) (f v)
      = percentile_score ascending n col v := by
  have hiff : ∀ a : ℚ, f a < f v ↔ a < v := by
    intro a
    constructor
    · intro hlt
      rcases lt_trichotomy a v with h | h | h
      · exact h
      · subst h; exact absurd hlt (lt_irrefl _)
      · exact absurd hlt (not_lt.mpr (le_of_lt (hf v a h)))
    · exact hf a v
  have hiff' : ∀ a : ℚ, f v < f a ↔ v < a := by
    intro a
    constructor
    · intro hlt
      rcases lt_trichotomy v a with h | h | h
      · exact h
      · subst h; exact absurd hlt (lt_irrefl _)
      · exact absurd hlt (not_lt.mpr (le_of_lt (hf a v h)))
    · exact hf v a
  have heq : ∀ a : ℚ, f a = f v ↔ a = v := by
    intro a
    constructor
    · intro hfe
      rcases lt_trichotomy a v with h | h | h
      · exact absurd hfe (ne_of_lt (hf a v h))
      · exact h
      · exact absurd hfe.symm (ne_of_lt (hf v a h))
    · intro h; rw [h]
  unfold percentile_score rankAvg
  rw [List.countP_map, List.countP_map]
  have h1 : col.countP
        ((fun x => if ascending then decide (x < f v) else decide (f v < x)) ∘ f)
      = col.countP (fun x => if ascending then decide (x < v) else decide (v < x)) :=
    List.countP_congr (fun a _ => by
      cases ascending <;> simp [Function.comp, hiff, hiff'])
  have h2 : col.countP ((fun x => decide (x = f v)) ∘ f)
      = col.countP (fun x => decide (x = v)) :=
    List.countP_congr (fun a _ => by simp [Function.comp, heq])
  rw [h1, h2]

lemma assign_grade_some (s : ℚ) :
    assign_grade (some s)
      = if 80 ≤ s then "A" else if 65 ≤ s then "B" else if 50 ≤ s then "C"
        else if 35 ≤ s then "D" else "F" :=
  rfl

lemma nanAdd_eq_some : ∀ {a b : Option ℚ} {x : ℚ}, nanAdd a b = some x →
    ∃ p q, a = some p ∧ b = some q ∧ x = p + q
  | some p, some q, _, h => ⟨p, q, rfl, rfl, (Option.some.inj h).symm⟩
  | none, some _, _, h => Option.noConfusion h
  | none, none, _, h => Option.noConfusion h
  | some _, none, _, h => Option.noConfusion h

lemma nanMul_eq_some : ∀ {o : Option ℚ} {c x : ℚ}, nanMul o c = some x →
    ∃ s, o = some s ∧ x = s * c
  | some s, _, _, h => ⟨s, rfl, (Option.some.inj h).symm⟩
  | none, _, _, h => Option.noConfusion h

lemma scoreOf_bounds {ascending : Bool} {n : Nat} {col : List (Option ℚ)}
    {v x : ℚ} (ho : some v ∈ col) (hn : col.length ≤ n)
    (hx : scoreOf ascending n col (some v) = some x) :
    20 ≤ x ∧ x ≤ 100 := by
  have hx' : some (percentile_score ascending n (col.filterMap id) v) = some x := hx
  obtain rfl := Option.some.inj hx'
  exact percentile_score_bounds (List.mem_filterMap.mpr ⟨some v, ho, rfl⟩)
    (le_trans (List.length_filterMap_le _ _) hn)

lemma median_setRank (records : List Record) (r : MetricsRow) :
    (setRank records r).median_response = r.median_response :=
  rfl

lemma rank_setRank (records : List Record) (r : MetricsRow) :
    (setRank records r).rank = 1 + (preRows records).countP
      (fun s => decide (s.median_response < r.median_response)) :=
  rfl

lemma wardCompleted_perm {recs recs' : List Record} (h : recs.Perm recs')
    (w : Int) : (wardCompleted recs w).Perm (wardCompleted recs' w) := by
  unfold wardCompleted completedRecords
  exact (h.filter _).filter _

lemma wardValues_perm {recs recs' : List Record} (h : recs.Perm recs')
    (w : Int) : (wardValues recs w).Perm (wardValues recs' w) :=
  (wardCompleted_perm h w).filterMap _

lemma wardList_perm_eq {recs recs' : List Record} (h : recs.Perm recs') :
    wardList recs = wardList recs' := by
  unfold wardList completedRecords
  exact insertionSort_perm_eq ((h.filter _).filterMap _).dedup

lemma mkMetricsRow_perm_eq {recs recs' : List Record} (h : recs.Perm recs')
    (w : Int) : mkMetricsRow recs w = mkMetricsRow recs' w := by
  unfold mkMetricsRow
  have hc := wardCompleted_perm h w
  have hv := wardValues_perm h w
  rw [medianOf_perm hv, percentile90_perm hv, minOf_perm hv, maxOf_perm hv,
    sampleVarianceOf_perm hv, hv.sum_eq, hv.length_eq, hc.length_eq, h.countP_eq]

lemma preRows_perm_eq {recs recs' : List Record} (h : recs.Perm recs') :
    preRows recs = preRows recs' := by
  unfold preRows
  rw [wardList_perm_eq h]
  exact List.map_congr_left (fun w _ => mkMetricsRow_perm_eq h w)

lemma cityMedian_perm_eq {recs recs' : List Record} (h : recs.Perm recs') :
    cityMedian recs = cityMedian recs' := by
  unfold cityMedian completedRecords
  exact medianOf_perm ((h.filter _).filterMap _)

lemma setRank_perm_eq {recs recs' : List Record} (h : recs.Perm recs')
    (r : MetricsRow) : setRank recs r = setRank recs' r := by
  unfold setRank
  rw [preRows_perm_eq h, cityMedian_perm_eq h]

lemma nanAdd_none_right (a : Option ℚ) : nanAdd a none = none := by
  cases a <;> rfl

lemma nanAdd_none_left (b : Option ℚ) : nanAdd none b = none := by
  cases b <;> rfl

lemma nanMul_none (c : ℚ) : nanMul none c = none :=
  rfl


/-! ### Claims -/

/-- C1 (counterexample): in `exC1` district 1 has two records (one completed,
one open), yet the `total_complaints` field of its metrics row is 1, the size
of the completed subset — not 2, the count of all records with that district
id.  The claim as stated is therefore false. -/
theorem C1_cex :
    (calculate_ward_metrics exC1).map MetricsRow.ward = [1]
  ∧ ((calculate_ward_metrics exC1).getD 0 arbMetricsRow).total_complaints
      ≠ exC1.countP (fun r => decide (r.ward = some 1)) := by
  with_unfolding_all decide

/-- C1 (amended): for every row of `calculate_ward_metrics`,
`total_complaints` equals the count of records of that district in the
*completed* subset, while the count of all records of the district (completed
or not) is carried in the separate `all_complaints` column. -/
theorem C1_total_complaints (records : List Record) (row : MetricsRow)
    (h : row ∈ calculate_ward_metrics records) :
    row.total_complaints
      = records.countP (fun r => isCompleted r && decide (r.ward = some row.ward))
  ∧ row.all_complaints = records.countP (fun r => decide (r.ward = some row.ward)) := by
  obtain ⟨w, hw, rfl⟩ := mem_calculate_ward_metrics.mp h
  exact ⟨wardCompleted_length records w, rfl⟩

/-- C1 (witness): the amended claim evaluated on `exC1w`. -/
theorem C1_witness :
    ((calculate_ward_metrics exC1w).getD 0 arbMetricsRow).total_complaints
      = exC1w.countP (fun r => isCompleted r &&
          decide (r.ward = some ((calculate_ward_metrics exC1w).getD 0 arbMetricsRow).ward)) :=
  (C1_total_complaints exC1w _ (by with_unfolding_all decide)).1

/-- C3: every graded row's letter comes from `assign_grade` applied to its
final score; `assign_grade` uses inclusive lower bounds 80/65/50/35; and the
boundary examples 80 → A, 79.999 → B, 65 → B, 50 → C, 35 → D, 34.999 → F
all hold. -/
theorem C3_grade_thresholds (s : ℚ) :
    (∀ threshold m, (calculate_ward_grades threshold m).map GradeRow.grade
        = (calculate_ward_grades threshold m).map (fun g => assign_grade g.final_score))
  ∧ (80 ≤ s → assign_grade (some s) = "A")
  ∧ (65 ≤ s → s < 80 → assign_grade (some s) = "B")
  ∧ (50 ≤ s → s < 65 → assign_grade (some s) = "C")
  ∧ (35 ≤ s → s < 50 → assign_grade (some s) = "D")
  ∧ (s < 35 → assign_grade (some s) = "F")
  ∧ assign_grade (some 80) = "A" ∧ assign_grade (some (79999 / 1000)) = "B"
  ∧ assign_grade (some 65) = "B" ∧ assign_grade (some 50) = "C"
  ∧ assign_grade (some 35) = "D" ∧ assign_grade (some (34999 / 1000)) = "F" := by
  refine ⟨fun threshold m => ?_, ?_, ?_, ?_, ?_, ?_, ?_, ?_, ?_, ?_, ?_, ?_⟩
  · unfold calculate_ward_grades
    rw [List.map_map, List.map_map]
    exact List.map_congr_left (fun r _ => rfl)
  · intro h1
    rw [assign_grade_some, if_pos h1]
  · intro h1 h2
    rw [assign_grade_some, if_neg (by linarith), if_pos h1]
  · intro h1 h2
    rw [assign_grade_some, if_neg (by linarith), if_neg (by linarith), if_pos h1]
  · intro h1 h2
    rw [assign_grade_some, if_neg (by linarith), if_neg (by linarith),
      if_neg (by linarith), if_pos h1]
  · intro h1
    rw [assign_grade_some, if_neg (by linarith), if_neg (by linarith),
      if_neg (by linarith), if_neg (by linarith)]
  all_goals with_unfolding_all decide

/-- C3 (witness): the threshold clauses evaluated at the concrete score 70. -/
theorem C3_witness :
    (65 ≤ (70 : ℚ)) ∧ ((70 : ℚ) < 80) ∧ assign_grade (some 70) = "B" :=
  ⟨by norm_num, by norm_num,
    (C3_grade_thresholds 70).2.2.1 (by norm_num) (by norm_num)⟩

/-- C5: every output row of `calculate_ward_metrics` has a completion rate in
[0, 100], and its district has at least one completed record — so a district
with zero completed records (in particular one with no records) never appears
in the output. -/
theorem C5_completion_rate (records : List Record) (row : MetricsRow)
    (h : row ∈ calculate_ward_metrics records) :
    0 ≤ row.completion_rate ∧ row.completion_rate ≤ 100
  ∧ 0 < records.countP (fun r => isCompleted r && decide (r.ward = some row.ward)) := by
  obtain ⟨w, hw, rfl⟩ := mem_calculate_ward_metrics.mp h
  obtain ⟨r0, hr0c, hr0w⟩ := exists_completed_of_mem_wardList hw
  have hr0 : r0 ∈ wardCompleted records w := by
    unfold wardCompleted
    exact List.mem_filter.mpr ⟨hr0c, by simp [hr0w]⟩
  have hcnt : 0 < (wardCompleted records w).length :=
    List.length_pos.mpr (by rintro hnil; rw [hnil] at hr0; exact List.not_mem_nil r0 hr0)
  have hcntP : 0 < records.countP
      (fun r => isCompleted r && decide (r.ward = some w)) := by
    rw [← wardCompleted_length]
    exact hcnt
  have hle : (wardCompleted records w).length
      ≤ records.countP (fun r => decide (r.ward = some w)) := by
    rw [wardCompleted_length]
    exact List.countP_mono_left (fun r _ hp => by
      rw [Bool.and_eq_true] at hp
      exact hp.2)
  have hallpos : 0 < records.countP (fun r => decide (r.ward = some w)) :=
    lt_of_lt_of_le hcnt hle
  have hq0 : (0 : ℚ) ≤ ((wardCompleted records w).length : ℚ)
      / (records.countP (fun r => decide (r.ward = some w)) : ℚ) * 100 := by
    positivity
  have hq100 : ((wardCompleted records w).length : ℚ)
      / (records.countP (fun r => decide (r.ward = some w)) : ℚ) * 100 ≤ 100 := by
    have hd : ((wardCompleted records w).length : ℚ)
        / (records.countP (fun r => decide (r.ward = some w)) : ℚ) ≤ 1 := by
      rw [div_le_one (by exact_mod_cast hallpos)]
      exact_mod_cast hle
    linarith
  exact ⟨round1_nonneg hq0, round1_le_100 hq100, hcntP⟩

/-- C5 (witness): the bounds evaluated on `exC5`. -/
theorem C5_witness :
    0 ≤ ((calculate_ward_metrics exC5).getD 0 arbMetricsRow).completion_rate
  ∧ ((calculate_ward_metrics exC5).getD 0 arbMetricsRow).completion_rate ≤ 100 := by
  have h := C5_completion_rate exC5
    ((calculate_ward_metrics exC5).getD 0 arbMetricsRow)
    (by with_unfolding_all decide)
  exact ⟨h.1, h.2.1⟩

/-- C7: with a present `closed_date`, the raw duration is
`(closed - created) / 86400` days; it is nulled exactly when negative or
above 365; a valid duration is kept; the record itself still counts toward
the per-district record count used as the completion-rate denominator; and a
record closed before creation has a null duration and is not in the completed
subset even when its status contains "Completed". -/
theorem C7_response_days (r : Record) (c : Int) (hc : r.closed_date = some c) :
    response_days_raw r = some (((c - r.created_date : ℤ) : ℚ) / 86400)
  ∧ (∀ d : ℚ, response_days_raw r = some d → (d < 0 ∨ 365 < d) →
      response_days r = none)
  ∧ (∀ d : ℚ, response_days_raw r = some d → 0 ≤ d → d ≤ 365 →
      response_days r = some d)
  ∧ (∀ (w : Int) (l : List Record), r.ward = some w →
      (r :: l).countP (fun s => decide (s.ward = some w))
        = l.countP (fun s => decide (s.ward = some w)) + 1)
  ∧ (c < r.created_date → response_days r = none ∧ isCompleted r = false) := by
  have hraw : response_days_raw r = some (((c - r.created_date : ℤ) : ℚ) / 86400) := by
    unfold response_days_raw
    rw [hc]
    rfl
  refine ⟨hraw, ?_, ?_, ?_, ?_⟩
  · intro d hd hrange
    unfold response_days
    rw [hd]
    show (if d < 0 then none else if 365 < d then none else some d) = none
    rcases hrange with h1 | h1
    · rw [if_pos h1]
    · rw [if_neg (by linarith), if_pos h1]
  · intro d hd h0 h365
    unfold response_days
    rw [hd]
    show (if d < 0 then none else if 365 < d then none else some d) = some d
    rw [if_neg (by linarith), if_neg (by linarith)]
  · intro w l hw
    exact List.countP_cons_of_pos _ _ (by simp [hw])
  · intro hlt
    have hneg : ((c - r.created_date : ℤ) : ℚ) / 86400 < 0 := by
      apply div_neg_of_neg_of_pos _ (by norm_num)
      have : (c - r.created_date : ℤ) < 0 := by omega
      exact_mod_cast this
    have hnone : response_days r = none := by
      unfold response_days
      rw [hraw]
      show (if ((c - r.created_date : ℤ) : ℚ) / 86400 < 0 then none
        else if 365 < ((c - r.created_date : ℤ) : ℚ) / 86400 then none
        else some (((c - r.created_date : ℤ) : ℚ) / 86400)) = none
      rw [if_pos hneg]
    refine ⟨hnone, ?_⟩
    unfold isCompleted
    rw [hnone, Bool.and_false]

/-- C7 (witness): `exC7` is closed one day before it was created; its
duration is nulled and it is excluded from the completed subset. -/
theorem C7_witness :
    response_days exC7 = none ∧ isCompleted exC7 = false :=
  (C7_response_days exC7 0 rfl).2.2.2.2 (by decide)

/-- C8: the empty record set produces an empty metrics table and a city
summary with zero counts and null medians; both functions are total, so no
exception is possible. -/
theorem C8_empty_input :
    calculate_ward_metrics [] = []
  ∧ get_city_summary [] =
      { total_complaints := 0, completed_complaints := 0, completion_rate := 0,
        median_response_days := none, mean_response_days := none,
        wards_with_data := 0, date_start := none, date_end := none } := by
  constructor <;> with_unfolding_all decide

/-- C2 (counterexample): a cohort of two districts that tie on every
statistic.  Average-method ranking gives both districts rank 1.5, so the
best-ranked district's speed score is 60, not 100, and the worst-ranked
district's speed score is 60, not 20: the claim as stated is false. -/
theorem C2_cex :
    (calculate_ward_metrics exC2).length = 2
  ∧ (calculate_ward_grades 800 (calculate_ward_metrics exC2)).map GradeRow.speed_score
      = [some 60, some 60]
  ∧ rankAvg true [(2 : ℚ), 2] 2 = 3 / 2
  ∧ percentile_score true 2 [(2 : ℚ), 2] 2 = 60 := by
  with_unfolding_all decide

/-- C2 (amended): each scored value's percentile score is
`100 - ((rank - 1) / max(n - 1, 1)) * 80` with average-method ranks; for a
cohort of one the score is 100; and for `n ≥ 2` a district whose value is
*uniquely* the best scores exactly 100 and one whose value is uniquely the
worst scores exactly 20 (tied extremes share an average rank and therefore
score strictly inside the interval, as `C2_cex` shows). -/
theorem C2_percentile_scores (ascending : Bool) (col : List ℚ) (v : ℚ)
    (hv : v ∈ col) :
    percentile_score ascending col.length col v
      = 100 - (rankAvg ascending col v - 1)
          / ((max (col.length - 1) 1 : ℕ) : ℚ) * 80
  ∧ (col.length = 1 → percentile_score ascending col.length col v = 100)
  ∧ (2 ≤ col.length → col.countP (fun x => decide (x = v)) = 1 →
      (∀ x ∈ col, x ≠ v → (if ascending then v < x else x < v)) →
      percentile_score ascending col.length col v = 100)
  ∧ (2 ≤ col.length → col.countP (fun x => decide (x = v)) = 1 →
      (∀ x ∈ col, x ≠ v → (if ascending then x < v else v < x)) →
      percentile_score ascending col.length col v = 20) := by
  refine ⟨rfl, ?_, ?_, ?_⟩
  · intro h1
    obtain ⟨a, ha⟩ := List.length_eq_one.mp h1
    subst ha
    have hva : v = a := by simpa using hv
    subst hva
    unfold percentile_score rankAvg
    cases ascending <;> simp [List.countP_singleton]
  · intro h2 hties hbest
    have hb : col.countP
        (fun x => if ascending then decide (x < v) else decide (v < x)) = 0 := by
      rw [List.countP_eq_zero]
      intro a ha hpa
      by_cases hav : a = v
      · subst hav
        revert hpa
        cases ascending <;> simp
      · have hba := hbest a ha hav
        revert hpa hba
        cases ascending <;> simp <;> intro h1' <;> linarith
    unfold percentile_score rankAvg
    rw [hb, hties]
    norm_num
  · intro h2 hties hworst
    have hcong : col.countP
        (fun x => if ascending then decide (x < v) else decide (v < x))
          = col.countP (fun x => !decide (x = v)) := by
      apply List.countP_congr
      intro a ha
      by_cases hav : a = v
      · subst hav
        cases ascending <;> simp
      · have hba := hworst a ha hav
        revert hba
        cases ascending <;> simp [hav]
    have hlen := List.length_eq_countP_add_countP
      (fun x => decide (x = v)) col
    have hlen' : col.length = 1 + col.countP (fun x => !decide (x = v)) := by
      rw [← hties]
      simpa using hlen
    have hb : col.countP
        (fun x => if ascending then decide (x < v) else decide (v < x))
          = col.length - 1 := by
      rw [hcong]
      omega
    unfold percentile_score rankAvg
    rw [hb, hties]
    have hmax : max (col.length - 1) 1 = col.length - 1 := by omega
    rw [hmax]
    have hcast : ((col.length - 1 : ℕ) : ℚ) = (col.length : ℚ) - 1 := by
      push_cast [Nat.cast_sub (by omega : 1 ≤ col.length)]
      ring
    rw [hcast]
    have hlen2 : (2 : ℚ) ≤ (col.length : ℚ) := by exact_mod_cast h2
    have hne : (col.length : ℚ) - 1 ≠ 0 := by linarith
    have hsimp : (col.length : ℚ) - 1 + (((1 : ℕ) : ℚ) + 1) / 2 - 1
        = (col.length : ℚ) - 1 := by push_cast; ring
    rw [hsimp, div_self hne]
    norm_num

/-- C6: the `rank` column follows pandas' `'min'` ranking of median response
ascending: a row whose median is (weakly) smallest has rank 1; rows with
identical medians share a rank; and when `u.median < v.median` with no median
strictly between them, `v`'s rank exceeds `u`'s by exactly the size of `u`'s
tie group. -/
theorem C6_rank_min_method (records : List Record) (u v : MetricsRow)
    (hu : u ∈ calculate_ward_metrics records)
    (hv : v ∈ calculate_ward_metrics records) :
    ((∀ t ∈ calculate_ward_metrics records,
        u.median_response ≤ t.median_response) → u.rank = 1)
  ∧ (u.median_response = v.median_response → u.rank = v.rank)
  ∧ (u.median_response < v.median_response →
      (∀ t ∈ calculate_ward_metrics records,
        t.median_response ≤ u.median_response
          ∨ v.median_response ≤ t.median_response) →
      v.rank = u.rank + (calculate_ward_metrics records).countP
        (fun t => decide (t.median_response = u.median_response))) := by
  obtain ⟨wu, hwu, rfl⟩ := mem_calculate_ward_metrics.mp hu
  obtain ⟨wv, hwv, rfl⟩ := mem_calculate_ward_metrics.mp hv
  refine ⟨?_, ?_, ?_⟩
  · intro hmin
    rw [rank_setRank]
    have hz : (preRows records).countP
        (fun s => decide (s.median_response
          < (mkMetricsRow records wu).median_response)) = 0 := by
      rw [List.countP_eq_zero]
      intro s hs hltd
      rw [decide_eq_true_eq] at hltd
      have hle := hmin (setRank records s) (mem_out_of_mem_preRows hs)
      rw [median_setRank, median_setRank] at hle
      exact absurd hltd (not_lt.mpr hle)
    rw [hz]
  · intro heq
    have heq' : (mkMetricsRow records wu).median_response
        = (mkMetricsRow records wv).median_response := heq
    rw [rank_setRank, rank_setRank, heq']
  · intro hlt hgap
    have hlt' : (mkMetricsRow records wu).median_response
        < (mkMetricsRow records wv).median_response := hlt
    simp only [median_setRank]
    rw [rank_setRank, rank_setRank, countP_metrics_median records
      (fun x => decide (x = (mkMetricsRow records wu).median_response))]
    have hsplit : (preRows records).countP
        (fun s => decide (s.median_response
          < (mkMetricsRow records wv).median_response))
        = (preRows records).countP
          (fun s => decide (s.median_response
              < (mkMetricsRow records wu).median_response)
            || decide (s.median_response
              = (mkMetricsRow records wu).median_response)) := by
      apply List.countP_congr
      intro s hs
      constructor
      · intro h
        rw [decide_eq_true_eq] at h
        have hg := hgap (setRank records s) (mem_out_of_mem_preRows hs)
        rw [median_setRank, median_setRank, median_setRank] at hg
        rcases hg with hle | hge
        · rcases lt_or_eq_of_le hle with h1 | h1
          · simp [h1]
          · simp [h1]
        · exact absurd h (not_lt.mpr hge)
      · intro h
        rw [Bool.or_eq_true, decide_eq_true_eq, decide_eq_true_eq] at h
        rw [decide_eq_true_eq]
        rcases h with h1 | h1
        · exact lt_trans h1 hlt'
        · rw [h1]
          exact hlt'
    rw [hsplit, countP_or_disjoint (fun s _ hand => by
      obtain ⟨h1, h2⟩ := hand
      rw [decide_eq_true_eq] at h1 h2
      rw [h2] at h1
      exact lt_irrefl _ h1)]
    omega

/-- C6 (witness): on `exC6` the two tied districts (median 2) both have rank
1 and the slower district (median 5) has rank 1 + 2 = 3. -/
theorem C6_witness :
    ((calculate_ward_metrics exC6).getD 0 arbMetricsRow).rank = 1
  ∧ ((calculate_ward_metrics exC6).getD 0 arbMetricsRow).rank
      = ((calculate_ward_metrics exC6).getD 1 arbMetricsRow).rank
  ∧ ((calculate_ward_metrics exC6).getD 2 arbMetricsRow).rank
      = ((calculate_ward_metrics exC6).getD 0 arbMetricsRow).rank
        + (calculate_ward_metrics exC6).countP
            (fun t => decide (t.median_response
              = ((calculate_ward_metrics exC6).getD 0 arbMetricsRow).median_response)) := by
  refine ⟨?_, ?_, ?_⟩
  · exact (C6_rank_min_method exC6
        ((calculate_ward_metrics exC6).getD 0 arbMetricsRow)
        ((calculate_ward_metrics exC6).getD 0 arbMetricsRow)
        (by with_unfolding_all decide) (by with_unfolding_all decide)).1
      (by with_unfolding_all decide)
  · exact (C6_rank_min_method exC6
        ((calculate_ward_metrics exC6).getD 0 arbMetricsRow)
        ((calculate_ward_metrics exC6).getD 1 arbMetricsRow)
        (by with_unfolding_all decide) (by with_unfolding_all decide)).2.1
      (by with_unfolding_all decide)
  · exact (C6_rank_min_method exC6
        ((calculate_ward_metrics exC6).getD 0 arbMetricsRow)
        ((calculate_ward_metrics exC6).getD 2 arbMetricsRow)
        (by with_unfolding_all decide) (by with_unfolding_all decide)).2.2
      (by with_unfolding_all decide) (by with_unfolding_all decide)

/-- C2 (witness): the amended claim on the cohort [1, 2]: the unique best
value scores 100 and the unique worst value scores 20. -/
theorem C2_witness :
    percentile_score true 2 [(1 : ℚ), 2] 1 = 100
  ∧ percentile_score true 2 [(1 : ℚ), 2] 2 = 20 := by
  constructor
  · exact (C2_percentile_scores true [(1 : ℚ), 2] 1
        (by with_unfolding_all decide)).2.2.1
      (by with_unfolding_all decide) (by with_unfolding_all decide)
      (by with_unfolding_all decide)
  · exact (C2_percentile_scores true [(1 : ℚ), 2] 2
        (by with_unfolding_all decide)).2.2.2
      (by with_unfolding_all decide) (by with_unfolding_all decide)
      (by with_unfolding_all decide)

/-- C4 (counterexample): `exC4` has one district with a single completed
record; its sample standard deviation is NaN, so its consistency score and
final score are NaN (`none`) — the final score does *not* lie in [20, 100],
refuting the claim's "always". -/
theorem C4_cex :
    (calculate_ward_grades 800 (calculate_ward_metrics exC4)).map
        GradeRow.consistency_score = [none]
  ∧ (calculate_ward_grades 800 (calculate_ward_metrics exC4)).map
        GradeRow.final_score = [none] := by
  with_unfolding_all decide

set_option maxHeartbeats 1600000 in
/-- C4 (amended): the five weights 0.30/0.25/0.20/0.15/0.10 sum to 1;
`final_score` is exactly their weighted combination of the five factor
scores under NaN-propagating arithmetic; every *defined* factor score lies
in [20, 100]; and whenever the final score is defined (all five factors
defined, i.e. the district's std is not NaN) it lies in [20, 100]. -/
theorem C4_final_score_weights (threshold : Nat) (m : List MetricsRow)
    (row : GradeRow) (h : row ∈ calculate_ward_grades threshold m) :
    ((30 : ℚ) / 100 + 25 / 100 + 20 / 100 + 15 / 100 + 10 / 100 = 1)
  ∧ row.final_score
      = nanAdd (nanAdd (nanAdd (nanAdd (nanMul row.speed_score (30 / 100))
          (nanMul row.volume_score (25 / 100))) (nanMul row.p90_score (20 / 100)))
          (nanMul row.consistency_score (15 / 100)))
          (nanMul row.completion_score (10 / 100))
  ∧ (∀ x, row.speed_score = some x → 20 ≤ x ∧ x ≤ 100)
  ∧ (∀ x, row.volume_score = some x → 20 ≤ x ∧ x ≤ 100)
  ∧ (∀ x, row.p90_score = some x → 20 ≤ x ∧ x ≤ 100)
  ∧ (∀ x, row.consistency_score = some x → 20 ≤ x ∧ x ≤ 100)
  ∧ (∀ x, row.completion_score = some x → 20 ≤ x ∧ x ≤ 100)
  ∧ (∀ x, row.final_score = some x → 20 ≤ x ∧ x ≤ 100) := by
  unfold calculate_ward_grades at h
  obtain ⟨r, hr, rfl⟩ := List.mem_map.mp h
  have hspeed : ∀ x, (mkGradeRow threshold m r).speed_score = some x →
      20 ≤ x ∧ x ≤ 100 := by
    intro x hx
    have hx' : scoreOf true m.length (speedCol m) (some r.median_response)
        = some x := hx
    have ho : some r.median_response ∈ speedCol m :=
      List.mem_map_of_mem (fun t => some t.median_response) hr
    have hn : (speedCol m).length ≤ m.length := by simp [speedCol]
    exact @scoreOf_bounds true m.length (speedCol m) r.median_response x ho hn hx'
  have hvol : ∀ x, (mkGradeRow threshold m r).volume_score = some x →
      20 ≤ x ∧ x ≤ 100 := by
    intro x hx
    have hx' : scoreOf false m.length (volumeCol m)
        (some (r.total_complaints : ℚ)) = some x := hx
    have ho : some (r.total_complaints : ℚ) ∈ volumeCol m :=
      List.mem_map_of_mem (fun t => some (t.total_complaints : ℚ)) hr
    have hn : (volumeCol m).length ≤ m.length := by simp [volumeCol]
    exact @scoreOf_bounds false m.length (volumeCol m) (r.total_complaints : ℚ)
      x ho hn hx'
  have hp90 : ∀ x, (mkGradeRow threshold m r).p90_score = some x →
      20 ≤ x ∧ x ≤ 100 := by
    intro x hx
    have hx' : scoreOf true m.length (p90Col m) (some r.p90_response)
        = some x := hx
    have ho : some r.p90_response ∈ p90Col m :=
      List.mem_map_of_mem (fun t => some t.p90_response) hr
    have hn : (p90Col m).length ≤ m.length := by simp [p90Col]
    exact @scoreOf_bounds true m.length (p90Col m) r.p90_response x ho hn hx'
  have hcons : ∀ x, (mkGradeRow threshold m r).consistency_score = some x →
      20 ≤ x ∧ x ≤ 100 := by
    intro x hx
    have hx' : scoreOf true m.length (consistencyCol m) r.std_response_sq
        = some x := hx
    cases hstd : r.std_response_sq with
    | none =>
        rw [hstd] at hx'
        exact Option.noConfusion hx'
    | some y =>
        rw [hstd] at hx'
        have ho : some y ∈ consistencyCol m := by
          rw [← hstd]
          exact List.mem_map_of_mem (fun t => t.std_response_sq) hr
        have hn : (consistencyCol m).length ≤ m.length := by simp [consistencyCol]
        exact @scoreOf_bounds true m.length (consistencyCol m) y x ho hn hx'
  have hcomp : ∀ x, (mkGradeRow threshold m r).completion_score = some x →
      20 ≤ x ∧ x ≤ 100 := by
    intro x hx
    have hx' : scoreOf false m.length (completionCol m)
        (some r.completion_rate) = some x := hx
    have ho : some r.completion_rate ∈ completionCol m :=
      List.mem_map_of_mem (fun t => some t.completion_rate) hr
    have hn : (completionCol m).length ≤ m.length := by simp [completionCol]
    exact @scoreOf_bounds false m.length (completionCol m) r.completion_rate
      x ho hn hx'
  have hfinal : ∀ x, (mkGradeRow threshold m r).final_score = some x →
      20 ≤ x ∧ x ≤ 100 := by
    intro x hx
    obtain ⟨p4, q5, h4, h5, rfl⟩ := nanAdd_eq_some hx
    obtain ⟨p3, q4, h3, h4b, rfl⟩ := nanAdd_eq_some h4
    obtain ⟨p2, q3, h2b, h3b, rfl⟩ := nanAdd_eq_some h3
    obtain ⟨p1, q2, h1b, h2c, rfl⟩ := nanAdd_eq_some h2b
    obtain ⟨s1, hs1, rfl⟩ := nanMul_eq_some h1b
    obtain ⟨s2, hs2, rfl⟩ := nanMul_eq_some h2c
    obtain ⟨s3, hs3, rfl⟩ := nanMul_eq_some h3b
    obtain ⟨s4, hs4, rfl⟩ := nanMul_eq_some h4b
    obtain ⟨s5, hs5, rfl⟩ := nanMul_eq_some h5
    have b1 := hspeed s1 hs1
    have b2 := hvol s2 hs2
    have b3 := hp90 s3 hs3
    have b4 := hcons s4 hs4
    have b5 := hcomp s5 hs5
    constructor <;>
      linarith [b1.1, b1.2, b2.1, b2.2, b3.1, b3.2, b4.1, b4.2, b5.1, b5.2]
  exact ⟨by norm_num, rfl, hspeed, hvol, hp90, hcons, hcomp, hfinal⟩

/-- C4 (witness): on `exC4w` (two districts, two completed records each) the
first row's final score is a defined 80, inside [20, 100]. -/
theorem C4_witness :
    ((calculate_ward_grades 800 (calculate_ward_metrics exC4w)).getD 0
        arbGradeRow).final_score = some 80
  ∧ 20 ≤ (80 : ℚ) ∧ (80 : ℚ) ≤ 100 := by
  have hfs : ((calculate_ward_grades 800 (calculate_ward_metrics exC4w)).getD 0
      arbGradeRow).final_score = some 80 := by
    with_unfolding_all decide
  have h := C4_final_score_weights 800 (calculate_ward_metrics exC4w)
    ((calculate_ward_grades 800 (calculate_ward_metrics exC4w)).getD 0 arbGradeRow)
    (by with_unfolding_all decide)
  exact ⟨hfs, h.2.2.2.2.2.2.2 80 hfs⟩

/-- C9: permuting the input records changes nothing: each district's median,
mean and p90 (indeed the whole metrics table) are unchanged, and the result
table is always sorted ascending by rank. -/
theorem C9_permutation_invariance (recs recs' : List Record)
    (hperm : recs.Perm recs') (hne : completedRecords recs ≠ []) :
    (∀ w, medianOf (wardValues recs w) = medianOf (wardValues recs' w))
  ∧ (∀ w, (wardValues recs w).sum / ((wardValues recs w).length : ℚ)
      = (wardValues recs' w).sum / ((wardValues recs' w).length : ℚ))
  ∧ (∀ w, percentile90 (wardValues recs w) = percentile90 (wardValues recs' w))
  ∧ calculate_ward_metrics recs = calculate_ward_metrics recs'
  ∧ List.Sorted rankLE (calculate_ward_metrics recs) := by
  refine ⟨?_, ?_, ?_, ?_, ?_⟩
  · exact fun w => medianOf_perm (wardValues_perm hperm w)
  · intro w
    rw [(wardValues_perm hperm w).sum_eq, (wardValues_perm hperm w).length_eq]
  · exact fun w => percentile90_perm (wardValues_perm hperm w)
  · unfold calculate_ward_metrics rankedRows
    rw [preRows_perm_eq hperm]
    exact congrArg _
      (List.map_congr_left (fun r _ => setRank_perm_eq hperm r))
  · exact List.sorted_insertionSort rankLE _

/-- C9 (witness): swapping the two records of `exC9` leaves the metrics
table unchanged. -/
theorem C9_witness :
    calculate_ward_metrics exC9 = calculate_ward_metrics exC9sw :=
  (C9_permutation_invariance exC9 exC9sw (List.Perm.swap _ _ _)
    (by with_unfolding_all decide)).2.2.2.1

/-- C10: a district whose completed subset has exactly one record gets a NaN
sample standard deviation; the NaN propagates through the consistency score
and the weighted sum to a NaN final score, every threshold comparison on NaN
is false, and the district is graded 'F' regardless of its other four factor
scores. -/
theorem C10_single_record_district (records : List Record) (threshold : Nat)
    (row : GradeRow)
    (h : row ∈ calculate_ward_grades threshold (calculate_ward_metrics records))
    (h1 : records.countP
      (fun r => isCompleted r && decide (r.ward = some row.base.ward)) = 1) :
    row.base.std_response_sq = none ∧ row.consistency_score = none
  ∧ row.final_score = none ∧ row.grade = "F" := by
  unfold calculate_ward_grades at h
  obtain ⟨r, hr, rfl⟩ := List.mem_map.mp h
  obtain ⟨w, hw, rfl⟩ := mem_calculate_ward_metrics.mp hr
  have hcnt : (wardCompleted records w).length = 1 :=
    (wardCompleted_length records w).trans h1
  have hvlen : (wardValues records w).length = 1 :=
    (wardValues_length records w).trans hcnt
  have hstd : sampleVarianceOf (wardValues records w) = none := by
    unfold sampleVarianceOf
    rw [if_pos (by omega)]
  have hs : (setRank records (mkMetricsRow records w)).std_response_sq
      = none := hstd
  have hc : (mkGradeRow threshold (calculate_ward_metrics records)
      (setRank records (mkMetricsRow records w))).consistency_score = none := by
    have h0 : (mkGradeRow threshold (calculate_ward_metrics records)
        (setRank records (mkMetricsRow records w))).consistency_score
        = scoreOf true (calculate_ward_metrics records).length
            (consistencyCol (calculate_ward_metrics records))
            (setRank records (mkMetricsRow records w)).std_response_sq := rfl
    rw [h0, hs]
    rfl
  have hf : (mkGradeRow threshold (calculate_ward_metrics records)
      (setRank records (mkMetricsRow records w))).final_score = none := by
    have h0 : (mkGradeRow threshold (calculate_ward_metrics records)
        (setRank records (mkMetricsRow records w))).final_score
        = nanAdd (nanAdd (nanAdd (nanAdd
            (nanMul (mkGradeRow threshold (calculate_ward_metrics records)
              (setRank records (mkMetricsRow records w))).speed_score (30 / 100))
            (nanMul (mkGradeRow threshold (calculate_ward_metrics records)
              (setRank records (mkMetricsRow records w))).volume_score (25 / 100)))
            (nanMul (mkGradeRow threshold (calculate_ward_metrics records)
              (setRank records (mkMetricsRow records w))).p90_score (20 / 100)))
            (nanMul (mkGradeRow threshold (calculate_ward_metrics records)
              (setRank records (mkMetricsRow records w))).consistency_score (15 / 100)))
            (nanMul (mkGradeRow threshold (calculate_ward_metrics records)
              (setRank records (mkMetricsRow records w))).completion_score (10 / 100)) := rfl
    rw [h0, hc, nanMul_none, nanAdd_none_right, nanAdd_none_left]
  have hg : (mkGradeRow threshold (calculate_ward_metrics records)
      (setRank records (mkMetricsRow records w))).grade
      = assign_grade (mkGradeRow threshold (calculate_ward_metrics records)
          (setRank records (mkMetricsRow records w))).final_score := rfl
  refine ⟨hs, hc, hf, ?_⟩
  rw [hg, hf]
  rfl

/-- C10 (witness): `exC10` has one district with exactly one completed
record; its graded row has NaN final score and grade 'F'. -/
theorem C10_witness :
    ((calculate_ward_grades 800 (calculate_ward_metrics exC10)).getD 0
        arbGradeRow).final_score = none
  ∧ ((calculate_ward_grades 800 (calculate_ward_metrics exC10)).getD 0
        arbGradeRow).grade = "F" := by
  have h := C10_single_record_district exC10 800
    ((calculate_ward_grades 800 (calculate_ward_metrics exC10)).getD 0 arbGradeRow)
    (by with_unfolding_all decide) (by with_unfolding_all decide)
  exact ⟨h.2.2.1, h.2.2.2⟩

end RatsAt
